import Mathlib

/-!
# Verification of the altcoins-monitor price-alert bot

Shallow embedding of the two Go variants of the bot:

* variant A — `src/main.go` (Telegram fan-out and timer-based alert
  de-duplication);
* variant B — `src/unnamed/part_000` (log-only, no de-duplication).

Go `float64` values are idealised as exact rationals (`ℚ`); `strconv.ParseFloat`
is modelled on its decimal grammar (sign, digits, optional fraction, optional
exponent).  The special spellings `Inf`/`NaN` and underscore separators are
outside the model, as is IEEE rounding — none of the claims below depends on
them at the inputs used.  The outcome of `json.Unmarshal` on a raw frame is
embedded as an `Option TradeMessage` (`none` = structural decode failure),
which is exactly the branch the Go code takes on it.
-/

set_option maxRecDepth 4000

-- The Batteries definitions of the rational operations are `irreducible`,
-- which blocks `decide` on concrete prices; restore default reducibility so
-- that concrete evaluations go through.
set_option allowUnsafeReducibility true in
attribute [semireducible] Rat.add Rat.mul Rat.inv Rat.div Rat.sub Rat.ofScientific Rat.neg

/-- Structure `TradeMessage` of both variants: the decoded Binance trade event
(`e`, `E`, `s`, `t`, `p`, `q`, `T`, `m`, `M`).  The price arrives as a string. -/
structure TradeMessage where
  Event : String
  EventTime : Int
  Symbol : String
  TradeID : Int
  Price : String
  Quantity : String
  Timestamp : Int
  IsMarketMaker : Bool
  Ignore : Bool
deriving Repr, DecidableEq

/-- Function `isWithinThreshold` (identical in both variants):
`lowerBound := target * 0.99`, `upperBound := target * 1.01`,
result `price >= lowerBound && price <= upperBound`. -/
def isWithinThreshold (price target : ℚ) : Bool :=
  let lowerBound := target * (99 / 100)
  let upperBound := target * (101 / 100)
  decide (lowerBound ≤ price) && decide (price ≤ upperBound)

/-- ASCII white space, the cases of Go's `unicode.IsSpace` relevant to the
Latin-1 range used by the feed. -/
def goIsSpace (c : Char) : Bool :=
  c == ' ' || c == '\t' || c == '\n' || c == '\x0b' || c == '\x0c' || c == '\r'

/-- Model of Go's `strings.TrimSpace`: drop white space from both ends. -/
def trimSpace (s : String) : String :=
  ⟨((s.data.dropWhile goIsSpace).reverse.dropWhile goIsSpace).reverse⟩

/-- Model of Go's `strings.ToLower` on the ASCII symbols the bot uses. -/
def goToLowerChar (c : Char) : Char :=
  if 'A' ≤ c ∧ c ≤ 'Z' then Char.ofNat (c.toNat + 32) else c

/-- Model of Go's `strings.ToLower`. -/
def toLowerStr (s : String) : String := ⟨s.data.map goToLowerChar⟩

/-- Digit run to a natural number, most significant first. -/
def digitsVal (cs : List Char) : Nat :=
  cs.foldl (fun n c => n * 10 + (c.toNat - 48)) 0

/-- Strip an optional leading sign; `true` means negative. -/
def splitSign : List Char → Bool × List Char
  | '-' :: rest => (true, rest)
  | '+' :: rest => (false, rest)
  | cs => (false, cs)

/-- Model of `strconv.ParseFloat(s, 64)` on its decimal grammar, returning the
exact rational value, or `none` exactly when Go reports a syntax error:
an optional sign, then digits with an optional single decimal point (at least
one digit overall), then an optional `e`/`E` exponent with its own optional
sign and at least one digit. -/
def parseFloat (s : String) : Option ℚ :=
  let (neg, cs) := splitSign s.data
  let (mantCs, expCs) := cs.span (fun c => !(c == 'e' || c == 'E'))
  let expOpt : Option Int :=
    match expCs with
    | [] => some 0
    | _ :: ecs0 =>
      let (eneg, ecs) := splitSign ecs0
      if ecs.isEmpty || !ecs.all Char.isDigit then none
      else some (if eneg then -(digitsVal ecs : Int) else (digitsVal ecs : Int))
  let (intCs, dotCs) := mantCs.span (fun c => !(c == '.'))
  let fracCs : List Char := match dotCs with | [] => [] | _ :: fs => fs
  match expOpt with
  | none => none
  | some e =>
    if (intCs ++ fracCs).isEmpty || !intCs.all Char.isDigit
        || !fracCs.all Char.isDigit then none
    else
      let mag : ℚ := (digitsVal (intCs ++ fracCs) : ℚ)
          / ((10 : ℚ) ^ fracCs.length) * ((10 : ℚ) ^ e)
      some (if neg then -mag else mag)

/-- Go map lookup `tbl[sym]` over the association-list embedding of the
`priceTargets` map: `some targets` together with `ok = true`. -/
def lookupTargets (tbl : List (String × List ℚ)) (sym : String) :
    Option (List ℚ) :=
  (tbl.find? (fun e => e.1 == sym)).map (·.2)

/-- Map `priceTargets` of variant A (`src/main.go`). -/
def priceTargetsA : List (String × List ℚ) := [
  ("LINKUSDT",   [21.7, 20.8, 18.44, 25.00]),
  ("KSMUSDT",    [40, 37]),
  ("COTIUSDT",   [15.4, 14.4, 12.7]),
  ("SOLUSDT",    [210, 200, 190]),
  ("XLMUSDT",    [0.42, 0.36, 0.30]),
  ("ALGOUSDT",   [0.42, 0.36, 0.30]),
  ("PENDLEUSDT", [5.9, 5.6, 5.4]),
  ("RNDRUSDT",   [9, 8, 7.2]),
  ("RAYUSDT",    [4.5, 4, 3.4]),
  ("JASMYUSDT",  [0.045]),
  ("GALAUSDT",   [0.50, 0.46, 0.40]),
  ("AVAXUSDT",   [47, 43]),
  ("KDAUSDT",    [1.31, 1.15, 1]),
  ("ICPUSDT",    [13.5, 13, 12.3]),
  ("DIAUSDT",    [0.88, 0.84, 0.80]),
  ("SUPERUSDT",  [1.6, 1.5]),
  ("RSRUSDT",    [0.01800, 0.01500, 0.012]),
  ("TAOUSDT",    [680, 655, 635]),
  ("ONDOUSDT",   [1.45, 1.28, 1.11]),
  ("ZILUSDT",    [0.285, 0.253, 0.2218]),
  ("LITUSDT",    [1.1, 1.0, 0.8]),
  ("TIAUSDT",    [7.65, 6.8])]

/-- Map `priceTargets` of variant B (`src/unnamed/part_000`). -/
def priceTargetsB : List (String × List ℚ) := [
  ("ICPUSDT",    [13.6, 13, 12.5]),
  ("LINKUSDT",   [21.7, 20.8, 18.44]),
  ("KSMUSDT",    [40, 37]),
  ("DIAUSDT",    [0.83, 0.73]),
  ("COTIUSDT",   [15, 14.4, 13.5]),
  ("SOLUSDT",    [210, 200, 190]),
  ("XLMUSDT",    [0.42, 0.36, 0.30]),
  ("KDAUSDT",    [1.377, 1.275, 1.15]),
  ("ALGOUSDT",   [0.42, 0.36, 0.30]),
  ("PENDLEUSDT", [6.1, 5.9, 5.6]),
  ("RNDRUSDT",   [9, 8, 7.2]),
  ("AAVEUSDT",   [220, 200, 183]),
  ("RAYUSDT",    [4.5, 4, 3.4]),
  ("JASMYUSDT",  [0.45]),
  ("GALAUSDT",   [0.50, 0.46, 0.40]),
  ("AVAXUSDT",   [47, 43]),
  ("SUPERUSDT",  [1.6, 1.5]),
  ("RSRUSDT",    [0.01800, 0.01500, 0.012])]

/-- One console log line emitted by the read loop. -/
inductive LogLine
  /-- Line `"Erro ao processar mensagem: %v"` (structural decode failure). -/
  | decodeError
  /-- Line `"Erro ao converter preço: %v"` (price parse failure). -/
  | priceError
  /-- Line `"[ALERTA] %s atingiu preço de $%f, próximo do alvo $%f"`. -/
  | alert (sym : String) (price target : ℚ)
  /-- Line `"[%s] Preço atual: $%.2f"` (symbol not configured). -/
  | info (sym : String) (price : ℚ)
deriving Repr, DecidableEq

/-- The targets of a tick that pass the threshold test, in list order: the
alert candidates of one tick, before any de-duplication. -/
def candidateAlerts (price : ℚ) (targets : List ℚ) : List ℚ :=
  targets.filter (fun t => isWithinThreshold price t)

/-- Outcome of one iteration of variant B's read loop on a decoded frame:
either the `panic(err)` after a failed `json.Unmarshal`, or the loop goes on
to the next frame having emitted some log lines. -/
inductive StepB
  | crash (logs : List LogLine)
  | next (logs : List LogLine)
deriving Repr, DecidableEq

/-- Variant B (`src/unnamed/part_000` lines 108–137): the body of the read
loop after `conn.ReadMessage` has produced a frame.  The argument is the
outcome of `json.Unmarshal` (`none` = error).  On decode failure the code
logs and then panics; on a `"trade"` event it parses the price (skipping the
frame on error), then either logs one alert per in-threshold target of the
symbol's configured list, or logs the current price if the symbol is not
configured.  Non-`"trade"` events are ignored. -/
def processMessageB (tbl : List (String × List ℚ)) (decoded : Option TradeMessage) :
    StepB :=
  match decoded with
  | none => .crash [.decodeError]
  | some trade =>
    if trimSpace trade.Event == "trade" then
      match parseFloat trade.Price with
      | none => .next [.priceError]
      | some currentPrice =>
        match lookupTargets tbl trade.Symbol with
        | some targets =>
          .next ((candidateAlerts currentPrice targets).map
            (fun target => .alert trade.Symbol currentPrice target))
        | none => .next [.info trade.Symbol currentPrice]
    else .next []

/-- Variant A's mutable de-duplication state (`src/main.go` lines 108–113):
`alertEmitted`, `lastSymbol`, and the pending `time.AfterFunc` callback that
will clear `alertEmitted`, abstracted as the epoch-millisecond instant at
which it fires (`none` = no pending callback: either none was ever armed, it
already fired, or it was stopped). -/
structure AlertState where
  alertEmitted : Bool
  lastSymbol : String
  deadline : Option Nat
deriving Repr, DecidableEq

/-- State at the top of `main`: `alertEmitted := false`, `lastSymbol` the zero
value `""`, the initial `time.NewTimer(0)` already drained, no `AfterFunc`
pending. -/
def initialAlertState : AlertState :=
  { alertEmitted := false, lastSymbol := "", deadline := none }

/-- Duration `1 * time.Minute` in milliseconds. -/
def alertCooldownMs : Nat := 60000

/-- The effect, visible at instant `now`, of the pending
`time.AfterFunc(1*time.Minute, func() { alertEmitted = false })` callback
(`src/main.go` lines 193–195): once its deadline has passed it has set
`alertEmitted` to `false` and is spent. -/
def applyTimer (now : Nat) (s : AlertState) : AlertState :=
  match s.deadline with
  | some d => if d ≤ now then { s with alertEmitted := false, deadline := none } else s
  | none => s

/-- One delivered alert of variant A: the data passed to
`sendTelegramChats(trade, currentPrice, target)` and the green log line. -/
structure Alert where
  symbol : String
  price : ℚ
  target : ℚ
deriving Repr, DecidableEq

/-- Variant A's inner loop over the symbol's targets (`src/main.go` lines
182–204), processed at instant `now`: for each target in order, if the price
is within threshold and (`!alertEmitted || lastSymbol != trade.Symbol`), the
alert is delivered, `alertEmitted`/`lastSymbol` are set, and the cool-down
timer is stopped and re-armed for one minute from now.  Returns the state
after the loop and the delivered alerts in order. -/
def evalTargetsA (now : Nat) (sym : String) (price : ℚ) :
    List ℚ → AlertState → AlertState × List Alert
  | [], s => (s, [])
  | target :: rest, s =>
    if isWithinThreshold price target && (!s.alertEmitted || s.lastSymbol != sym) then
      let armed : AlertState :=
        { alertEmitted := true, lastSymbol := sym,
          deadline := some (now + alertCooldownMs) }
      let (s', as) := evalTargetsA now sym price rest armed
      (s', { symbol := sym, price := price, target := target } :: as)
    else
      evalTargetsA now sym price rest s

/-- Outcome of one iteration of variant A's read loop: the `panic(err)` after
a failed decode, or the next loop iteration with the updated de-duplication
state, the alerts delivered (each fanned out to Telegram), and the log
lines. -/
inductive StepA
  | crash (logs : List LogLine)
  | next (state : AlertState) (alerts : List Alert) (logs : List LogLine)
deriving Repr, DecidableEq

/-- Delivered alerts of a variant A step (none when the step crashed). -/
def StepA.alerts : StepA → List Alert
  | .crash _ => []
  | .next _ as _ => as

/-- Variant A (`src/main.go` lines 154–216): the body of the read loop on a
decoded frame at instant `now`.  The asynchronous `AfterFunc` callback is
accounted for first (`applyTimer`); the trailing `select` on `alertTimer.C`
is a no-op, because the initial `time.NewTimer(0)` is drained before the loop
starts and `time.AfterFunc` returns a timer whose channel is nil. -/
def processMessageA (tbl : List (String × List ℚ)) (now : Nat) (s0 : AlertState)
    (decoded : Option TradeMessage) : StepA :=
  let s := applyTimer now s0
  match decoded with
  | none => .crash [.decodeError]
  | some trade =>
    if trimSpace trade.Event == "trade" then
      match parseFloat trade.Price with
      | none => .next s [] [.priceError]
      | some currentPrice =>
        match lookupTargets tbl trade.Symbol with
        | some targets =>
          let (s', as) := evalTargetsA now trade.Symbol currentPrice targets s
          .next s' as (as.map (fun a => .alert a.symbol a.price a.target))
        | none => .next s [] [.info trade.Symbol currentPrice]
    else .next s [] []

/-- One frame handed to variant A's read loop: the instant it is processed
and the outcome of decoding it. -/
structure Frame where
  now : Nat
  decoded : Option TradeMessage

/-- Variant A's read loop over a finite prefix of the stream, from state `s`:
the final state and every alert delivered along the way, stopping at a
decode-failure panic. -/
def runA (tbl : List (String × List ℚ)) : List Frame → AlertState → AlertState × List Alert
  | [], s => (s, [])
  | f :: fs, s =>
    match processMessageA tbl f.now s f.decoded with
    | .crash _ => (s, [])
    | .next s' as _ =>
      let (s'', rest) := runA tbl fs s'
      (s'', as ++ rest)

/-- Constant `binanceWSSURL` (both variants). -/
def binanceWSSURL : String := "wss://stream.binance.com:9443/ws"

/-- One entry of the `assets` list: `strings.ToLower(asset) + "@trade"`. -/
def streamName (asset : String) : String := toLowerStr asset ++ "@trade"

/-- The `assets` list built from the table's symbols (the `range` loop of both
variants; Go map iteration order is unspecified, so the symbol order is a
parameter here). -/
def subscriptionStreams (symbols : List String) : List String :=
  symbols.map streamName

/-- Value `streams := strings.Join(assets, "/")`. -/
def streamsPath (symbols : List String) : String :=
  String.intercalate "/" (subscriptionStreams symbols)

/-- The dial URL `binanceWSSURL + "/" + streams`. -/
def connectionURL (symbols : List String) : String :=
  binanceWSSURL ++ "/" ++ streamsPath symbols

/-- The single `subscribeMessage` JSON control object written after connect.
`requestID` stands for `uuid.New().String()`, whose generation is
nondeterministic and therefore a parameter of the model. -/
structure SubscribeMessage where
  method : String
  params : List String
  id : String
deriving Repr, DecidableEq

/-- Control object `subscribeMessage` with keys method, params and id
(both variants). -/
def mkSubscribeMessage (symbols : List String) (requestID : String) :
    SubscribeMessage :=
  { method := "SUBSCRIBE", params := subscriptionStreams symbols, id := requestID }

/-- The `chatIds` destination list of variant A. -/
def chatIds : List Int := [-1002314879454, 6753790669, 6717764833]

/-- Structure `TradeTelegramMessage` of variant A. -/
structure TradeTelegramMessage where
  ChatID : Int
  Symbol : String
  Price : ℚ
  Target : ℚ
deriving Repr, DecidableEq

/-- Outcome of `sendMessage`: the message handed to `bot.Send`, and whether
the per-chat error log line was printed.  Whether `bot.Send` fails is decided
by the network, modelled by the oracle `fails`. -/
structure SendOutcome where
  attempted : TradeTelegramMessage
  errorLogged : Bool
deriving Repr, DecidableEq

/-- Function `sendMessage` (variant A, `src/main.go` lines 93–99): always attempts the
send; on failure it only logs and returns. -/
def sendMessage (fails : Int → Bool) (message : TradeTelegramMessage) : SendOutcome :=
  { attempted := message, errorLogged := fails message.ChatID }

/-- Function `sendTelegramChats` (variant A, `src/main.go` lines 222–232): for each
chat id in order, build the `TradeTelegramMessage` with the tick's symbol,
the observed price and the matched target, and call `sendMessage`. -/
def sendTelegramChats (fails : Int → Bool) (trade : TradeMessage)
    (currentPrice target : ℚ) : List SendOutcome :=
  chatIds.map (fun chatID =>
    sendMessage fails
      { ChatID := chatID, Symbol := trade.Symbol, Price := currentPrice,
        Target := target })

/-- A convenient concrete tick (the end-to-end scenario of the spec). -/
def solTick (p : String) : TradeMessage :=
  { Event := "trade", EventTime := 1, Symbol := "SOLUSDT", TradeID := 1,
    Price := p, Quantity := "1", Timestamp := 1, IsMarketMaker := false,
    Ignore := false }

example : parseFloat "208.9" = some (2089 / 10) := by decide
example : parseFloat "-1" = some (-1) := by decide
example : parseFloat "abc" = none := by decide
example : parseFloat "1e2" = some 100 := by decide
example : parseFloat "2.5e-1" = some (1 / 4) := by decide
example : parseFloat "" = none := by decide
example : parseFloat "." = none := by decide
example : parseFloat "1." = some 1 := by decide
example : parseFloat ".5" = some (1 / 2) := by decide
example : parseFloat "1.2.3" = none := by decide
example : isWithinThreshold 208.9 210 = true := by decide
example : isWithinThreshold 205 210 = false := by decide
example : lookupTargets priceTargetsA "SOLUSDT" = some [210, 200, 190] := by decide
example : lookupTargets priceTargetsA "FOOUSDT" = none := by decide
example : trimSpace "  trade " = "trade" := by decide
example : toLowerStr "SOLUSDT" = "solusdt" := by decide

-- End-to-end scenario from the spec: 205.00 is outside ±1% of 210/200/190,
-- 208.9 is inside ±1% of 210.
example : processMessageB priceTargetsB (some (solTick "205.00")) = .next [] := by
  decide
example :
    processMessageB priceTargetsB (some (solTick "208.9")) =
      .next [.alert "SOLUSDT" (2089 / 10) 210] := by
  decide
example :
    processMessageA priceTargetsA 0 initialAlertState (some (solTick "208.9")) =
      .next ⟨true, "SOLUSDT", some 60000⟩ [⟨"SOLUSDT", 2089 / 10, 210⟩]
        [.alert "SOLUSDT" (2089 / 10) 210] := by
  decide
example : streamName "SOLUSDT" = "solusdt@trade" := by decide

/-- The de-duplication policy as the spec words it, applied to the candidate
list of one tick: a candidate is emitted iff no suppression is active or the
suppressing symbol differs from the tick's; emitting (re)arms suppression for
the tick's symbol with a fresh one-minute deadline.  Used to show variant A's
loop factors as candidate selection followed by this policy. -/
def dedupSpec (sym : String) (now : Nat) : AlertState → List ℚ → AlertState × List ℚ
  | s, [] => (s, [])
  | s, t :: ts =>
    if !s.alertEmitted || s.lastSymbol != sym then
      let armed : AlertState :=
        { alertEmitted := true, lastSymbol := sym,
          deadline := some (now + alertCooldownMs) }
      let r := dedupSpec sym now armed ts
      (r.1, t :: r.2)
    else
      dedupSpec sym now s ts

theorem evalTargetsA_suppressed (now : Nat) (sym : String) (price : ℚ)
    (ts : List ℚ) (s : AlertState) (he : s.alertEmitted = true)
    (hs : s.lastSymbol = sym) : evalTargetsA now sym price ts s = (s, []) := by
  induction ts with
  | nil => rfl
  | cons t rest ih => simp [evalTargetsA, he, hs, ih]

theorem evalTargetsA_nil_state (now : Nat) (sym : String) (price : ℚ)
    (ts : List ℚ) : ∀ s : AlertState, (evalTargetsA now sym price ts s).2 = [] →
    (evalTargetsA now sym price ts s).1 = s := by
  induction ts with
  | nil => intro s _; rfl
  | cons t rest ih =>
    intro s h
    by_cases hc : (isWithinThreshold price t
        && (!s.alertEmitted || s.lastSymbol != sym)) = true
    · simp [evalTargetsA, hc] at h
    · simp only [evalTargetsA, hc, if_false, Bool.not_eq_true] at h ⊢
      rw [if_neg (by simp [hc])] at h ⊢
      exact ih s h

theorem evalTargetsA_arm (now : Nat) (sym : String) (price : ℚ)
    (ts : List ℚ) : ∀ s : AlertState, (evalTargetsA now sym price ts s).2 ≠ [] →
    (evalTargetsA now sym price ts s).1 =
      { alertEmitted := true, lastSymbol := sym,
        deadline := some (now + alertCooldownMs) } := by
  induction ts with
  | nil => intro s h; simp [evalTargetsA] at h
  | cons t rest ih =>
    intro s h
    by_cases hc : (isWithinThreshold price t
        && (!s.alertEmitted || s.lastSymbol != sym)) = true
    · simp only [evalTargetsA, hc, if_true]
      by_cases hrest : (evalTargetsA now sym price rest
          { alertEmitted := true, lastSymbol := sym,
            deadline := some (now + alertCooldownMs) }).2 = []
      · simpa using evalTargetsA_nil_state now sym price rest _ hrest
      · simpa using ih _ hrest
    · simp only [evalTargetsA, hc, if_false] at h ⊢
      rw [if_neg (by simp [hc])] at h ⊢
      exact ih s h

theorem evalTargetsA_symbols (now : Nat) (sym : String) (price : ℚ)
    (ts : List ℚ) : ∀ (s : AlertState) (a : Alert),
    a ∈ (evalTargetsA now sym price ts s).2 → a.symbol = sym := by
  induction ts with
  | nil => intro s a h; simp [evalTargetsA] at h
  | cons t rest ih =>
    intro s a h
    by_cases hc : (isWithinThreshold price t
        && (!s.alertEmitted || s.lastSymbol != sym)) = true
    · simp only [evalTargetsA, hc, if_true, List.mem_cons] at h
      rcases h with h | h
      · rw [h]
      · exact ih _ a h
    · simp only [evalTargetsA, hc, if_false] at h
      rw [if_neg (by simp [hc])] at h
      exact ih s a h

theorem evalTargetsA_delivers (now : Nat) (sym : String) (price : ℚ)
    (ts : List ℚ) (s : AlertState)
    (hg : s.alertEmitted = false ∨ s.lastSymbol ≠ sym)
    (hc : candidateAlerts price ts ≠ []) :
    (evalTargetsA now sym price ts s).2 ≠ [] := by
  have hb : (!s.alertEmitted || s.lastSymbol != sym) = true := by
    rcases hg with h | h <;> simp [h]
  induction ts with
  | nil => simp [candidateAlerts] at hc
  | cons t rest ih =>
    cases h : isWithinThreshold price t with
    | true => simp [evalTargetsA, h, hb]
    | false =>
      have hrest : candidateAlerts price rest ≠ [] := by
        simpa [candidateAlerts, List.filter_cons, h] using hc
      have h' : (isWithinThreshold price t
          && (!s.alertEmitted || s.lastSymbol != sym)) = false := by
        simp [h]
      simpa [evalTargetsA, h] using ih hrest

theorem evalTargetsA_eq_dedupSpec (now : Nat) (sym : String) (price : ℚ)
    (ts : List ℚ) : ∀ s : AlertState,
    evalTargetsA now sym price ts s =
      ((dedupSpec sym now s (candidateAlerts price ts)).1,
       (dedupSpec sym now s (candidateAlerts price ts)).2.map
         (fun t => { symbol := sym, price := price, target := t })) := by
  induction ts with
  | nil => intro s; rfl
  | cons t rest ih =>
    intro s
    cases h : isWithinThreshold price t with
    | true =>
      cases hg : (!s.alertEmitted || s.lastSymbol != sym) with
      | true =>
        have hg' : s.alertEmitted = false ∨ ¬s.lastSymbol = sym := by
          simpa using hg
        simp [evalTargetsA, dedupSpec, candidateAlerts, List.filter_cons, h, hg,
          hg', ih]
      | false =>
        have hg' : ¬(s.alertEmitted = false ∨ ¬s.lastSymbol = sym) := by
          simpa using hg
        simp [evalTargetsA, dedupSpec, candidateAlerts, List.filter_cons, h, hg,
          hg', ih]
    | false =>
      simp [evalTargetsA, candidateAlerts, List.filter_cons, h, ih]

/-- C1 counterexample:  The claim says a structural decode failure
crashes only one of the two variants while the other logs it and continues
with the next message.  In fact, on a frame whose outer JSON fails to decode,
variant B also logs and then panics (`src/unnamed/part_000` lines 111–115),
exactly like variant A (`src/main.go` lines 167–171): it never takes the
`.next` continuation. -/
theorem decodeFailure_onlyOneVariant_cex :
    processMessageB priceTargetsB none = .crash [.decodeError] ∧
    processMessageA priceTargetsA 0 initialAlertState none = .crash [.decodeError] ∧
    ∀ logs : List LogLine, processMessageB priceTargetsB none ≠ .next logs := by
  refine ⟨rfl, rfl, fun logs h => ?_⟩
  simp [processMessageB] at h

/-- C1 amended:  A raw message whose outer JSON structure fails to
decode is logged and then causes a process crash in both variants; neither
variant continues the read loop on such a frame. -/
theorem decodeFailure_bothVariantsCrash
    (tblB tblA : List (String × List ℚ)) (now : Nat) (s : AlertState) :
    processMessageB tblB none = .crash [.decodeError] ∧
    processMessageA tblA now s none = .crash [.decodeError] :=
  ⟨rfl, rfl⟩

/-- C3:  For a (positive) target `T`, `isWithinThreshold P T` holds iff
`0.99*T ≤ P ≤ 1.01*T`, with both bounds inclusive: it is `true` exactly at
`P = 0.99*T` and `P = 1.01*T`, and `false` strictly below `0.99*T` or
strictly above `1.01*T`. -/
theorem isWithinThreshold_band (price target : ℚ) (hT : 0 < target) :
    (isWithinThreshold price target = true ↔
      99 / 100 * target ≤ price ∧ price ≤ 101 / 100 * target) ∧
    isWithinThreshold (99 / 100 * target) target = true ∧
    isWithinThreshold (101 / 100 * target) target = true ∧
    (∀ p : ℚ, p < 99 / 100 * target → isWithinThreshold p target = false) ∧
    (∀ p : ℚ, 101 / 100 * target < p → isWithinThreshold p target = false) := by
  refine ⟨?_, ?_, ?_, ?_, ?_⟩
  · simp only [isWithinThreshold, Bool.and_eq_true, decide_eq_true_eq]
    constructor
    · rintro ⟨h1, h2⟩
      exact ⟨by linarith, by linarith⟩
    · rintro ⟨h1, h2⟩
      exact ⟨by linarith, by linarith⟩
  · simp only [isWithinThreshold, Bool.and_eq_true, decide_eq_true_eq]
    exact ⟨by linarith, by linarith⟩
  · simp only [isWithinThreshold, Bool.and_eq_true, decide_eq_true_eq]
    exact ⟨by linarith, by linarith⟩
  · intro p hp
    have hlt : ¬(target * (99 / 100) ≤ p) := by linarith
    simp [isWithinThreshold, hlt]
  · intro p hp
    have hgt : ¬(p ≤ target * (101 / 100)) := by linarith
    simp [isWithinThreshold, hgt]

/-- Witness for `isWithinThreshold_band` at the spec's example target 210:
the lower boundary 207.9 is inside, 205 (strictly below it) is outside. -/
theorem isWithinThreshold_band_witness :
    isWithinThreshold (99 / 100 * 210) 210 = true ∧
    isWithinThreshold 205 210 = false :=
  ⟨(isWithinThreshold_band (99 / 100 * 210) 210 (by norm_num)).2.1,
   (isWithinThreshold_band 205 210 (by norm_num)).2.2.2.1 205 (by norm_num)⟩

/-- C2:  For a decoded `"trade"` tick whose symbol is configured with
target list `targets`: the candidate alerts are one per target within
threshold (`K` matching targets give `K` candidates); variant B emits exactly
one alert log per candidate; and variant A's loop factors as candidate
selection followed by the de-duplication policy applied to that candidate
list, so each matching target independently raises its candidate alert before
de-duplication. -/
theorem tick_candidateAlerts (tbl : List (String × List ℚ))
    (trade : TradeMessage) (price : ℚ) (targets : List ℚ)
    (hE : trimSpace trade.Event = "trade")
    (hp : parseFloat trade.Price = some price)
    (hl : lookupTargets tbl trade.Symbol = some targets) :
    (candidateAlerts price targets).length =
      targets.countP (fun t => isWithinThreshold price t) ∧
    processMessageB tbl (some trade) =
      .next ((candidateAlerts price targets).map
        (fun target => .alert trade.Symbol price target)) ∧
    ∀ (now : Nat) (s : AlertState),
      evalTargetsA now trade.Symbol price targets s =
        ((dedupSpec trade.Symbol now s (candidateAlerts price targets)).1,
         (dedupSpec trade.Symbol now s (candidateAlerts price targets)).2.map
           (fun t => { symbol := trade.Symbol, price := price, target := t })) := by
  refine ⟨?_, ?_, fun now s => evalTargetsA_eq_dedupSpec now trade.Symbol price targets s⟩
  · simp [candidateAlerts, List.countP_eq_length_filter]
  · simp [processMessageB, hE, hp, hl]

/-- Witness for `tick_candidateAlerts`: the spec's end-to-end scenario, a
SOLUSDT tick at price 208.9 against variant B's table (targets 210, 200,
190), of which exactly target 210 matches. -/
theorem tick_candidateAlerts_witness :
    processMessageB priceTargetsB (some (solTick "208.9")) =
      .next ((candidateAlerts (2089 / 10) [210, 200, 190]).map
        (fun target => .alert "SOLUSDT" (2089 / 10) target)) :=
  (tick_candidateAlerts priceTargetsB (solTick "208.9") (2089 / 10)
    [210, 200, 190] (by decide) (by decide) (by decide)).2.1

/-- C4:  Variant A's de-duplication contract: an alert is delivered only
if no suppression is active or the tick's symbol differs from the
suppressing one; a suppressed same-symbol tick delivers nothing and leaves
the state untouched; a matching tick for a different symbol does deliver;
any delivery (re)arms the one-minute cool-down recording the tick's symbol;
and once the cool-down deadline has passed the flag is cleared. -/
theorem dedup_contract (now : Nat) (s : AlertState) (sym : String) (price : ℚ)
    (ts : List ℚ) :
    ((evalTargetsA now sym price ts s).2 ≠ [] →
      s.alertEmitted = false ∨ s.lastSymbol ≠ sym) ∧
    (s.alertEmitted = true → s.lastSymbol = sym →
      evalTargetsA now sym price ts s = (s, [])) ∧
    (s.alertEmitted = true → s.lastSymbol ≠ sym → candidateAlerts price ts ≠ [] →
      (evalTargetsA now sym price ts s).2 ≠ []) ∧
    ((evalTargetsA now sym price ts s).2 ≠ [] →
      (evalTargetsA now sym price ts s).1 =
        { alertEmitted := true, lastSymbol := sym,
          deadline := some (now + alertCooldownMs) }) ∧
    (∀ d : Nat, s.deadline = some d → d ≤ now →
      (applyTimer now s).alertEmitted = false) := by
  refine ⟨?_, ?_, ?_, ?_, ?_⟩
  · intro h
    by_contra hcon
    push_neg at hcon
    rcases hcon with ⟨h1, h2⟩
    have hsup := evalTargetsA_suppressed now sym price ts s
      (by simpa using h1) h2
    exact h (by rw [hsup])
  · exact fun he hs => evalTargetsA_suppressed now sym price ts s he hs
  · exact fun _ hne hc => evalTargetsA_delivers now sym price ts s (Or.inr hne) hc
  · exact evalTargetsA_arm now sym price ts s
  · intro d hd hle
    simp [applyTimer, hd, hle]

/-- Witness for `dedup_contract`: with suppression armed by SOLUSDT, a
matching SOLUSDT tick delivers nothing, a matching LINKUSDT tick delivers,
and once the one-minute deadline passes the flag clears. -/
theorem dedup_contract_witness :
    evalTargetsA 0 "SOLUSDT" 210 [210] ⟨true, "SOLUSDT", none⟩ =
      (⟨true, "SOLUSDT", none⟩, []) ∧
    (evalTargetsA 0 "LINKUSDT" 21.7 [21.7] ⟨true, "SOLUSDT", none⟩).2 ≠ [] ∧
    (applyTimer 70000 ⟨true, "SOLUSDT", some 60000⟩).alertEmitted = false :=
  ⟨(dedup_contract 0 ⟨true, "SOLUSDT", none⟩ "SOLUSDT" 210 [210]).2.1 rfl rfl,
   (dedup_contract 0 ⟨true, "SOLUSDT", none⟩ "LINKUSDT" 21.7 [21.7]).2.2.1 rfl
     (by decide) (by decide),
   (dedup_contract 70000 ⟨true, "SOLUSDT", some 60000⟩ "X" 1 []).2.2.2.2 60000
     rfl (by norm_num)⟩

/-- A tick for a symbol configured in neither variant's table. -/
def fooTick (p : String) : TradeMessage :=
  { Event := "trade", EventTime := 1, Symbol := "FOOUSDT", TradeID := 1,
    Price := p, Quantity := "1", Timestamp := 1, IsMarketMaker := false,
    Ignore := false }

/-- C5 counterexample:  The claim says every tick reaching threshold
evaluation has a non-negative price.  But `strconv.ParseFloat` accepts signed
numbers, and neither variant checks the sign: the tick with price string
`"-1"` parses to `-1 < 0` and reaches evaluation, observable through the
price log it produces. -/
theorem negativePrice_reachesEvaluation_cex :
    parseFloat "-1" = some (-1) ∧ (-1 : ℚ) < 0 ∧
    processMessageB priceTargetsB (some (fooTick "-1")) =
      .next [.info "FOOUSDT" (-1)] ∧
    processMessageA priceTargetsA 0 initialAlertState (some (fooTick "-1")) =
      .next initialAlertState [] [.info "FOOUSDT" (-1)] :=
  ⟨by decide, by decide, by decide, by decide⟩

/-- C5 amended:  Any tick whose price field fails to parse is dropped
before threshold evaluation and never propagated (no alert, no price log);
a tick whose price parses reaches evaluation carrying exactly the parsed
value — which the code does not constrain to be non-negative. -/
theorem parseFailure_drop (tblB tblA : List (String × List ℚ))
    (trade : TradeMessage) (now : Nat) (s : AlertState)
    (hE : trimSpace trade.Event = "trade") :
    (parseFloat trade.Price = none →
      processMessageB tblB (some trade) = .next [.priceError] ∧
      processMessageA tblA now s (some trade) =
        .next (applyTimer now s) [] [.priceError]) ∧
    (∀ p : ℚ, parseFloat trade.Price = some p →
      lookupTargets tblB trade.Symbol = none →
      processMessageB tblB (some trade) = .next [.info trade.Symbol p]) := by
  constructor
  · intro hp
    constructor
    · simp [processMessageB, hE, hp]
    · simp [processMessageA, hE, hp]
  · intro p hp hl
    simp [processMessageB, hE, hp, hl]

/-- Witness for `parseFailure_drop`: a malformed price `"abc"` is dropped
with only the parse-error log; a parsed price `"205.00"` reaches evaluation
as the value 205. -/
theorem parseFailure_drop_witness :
    processMessageB priceTargetsB (some (fooTick "abc")) = .next [.priceError] ∧
    processMessageB priceTargetsB (some (fooTick "205.00")) =
      .next [.info "FOOUSDT" 205] :=
  ⟨((parseFailure_drop priceTargetsB priceTargetsA (fooTick "abc") 0
      initialAlertState (by decide)).1 (by decide)).1,
   (parseFailure_drop priceTargetsB priceTargetsA (fooTick "205.00") 0
      initialAlertState (by decide)).2 205 (by decide) (by decide)⟩

/-- C6:  In both variants a `"trade"` message with an unparseable price
string is logged, only that frame is skipped, and the loop continues to the
next message: neither variant crashes, variant A's de-duplication state is
untouched (beyond the asynchronous timer clearing), and no alert is
raised. -/
theorem malformedPrice_skip (tblB tblA : List (String × List ℚ))
    (trade : TradeMessage) (now : Nat) (s : AlertState)
    (hE : trimSpace trade.Event = "trade")
    (hp : parseFloat trade.Price = none) :
    processMessageB tblB (some trade) = .next [.priceError] ∧
    processMessageA tblA now s (some trade) =
      .next (applyTimer now s) [] [.priceError] ∧
    (∀ logs : List LogLine, processMessageB tblB (some trade) ≠ .crash logs) ∧
    (∀ logs : List LogLine, processMessageA tblA now s (some trade) ≠ .crash logs) := by
  refine ⟨by simp [processMessageB, hE, hp], by simp [processMessageA, hE, hp],
    fun logs h => ?_, fun logs h => ?_⟩
  · rw [show processMessageB tblB (some trade) = .next [.priceError] from
      by simp [processMessageB, hE, hp]] at h
    exact StepB.noConfusion h
  · rw [show processMessageA tblA now s (some trade) =
      .next (applyTimer now s) [] [.priceError] from
      by simp [processMessageA, hE, hp]] at h
    exact StepA.noConfusion h

/-- Witness for `malformedPrice_skip` at the malformed price `"abc"`. -/
theorem malformedPrice_skip_witness :
    processMessageB priceTargetsB (some (fooTick "abc")) = .next [.priceError] ∧
    processMessageA priceTargetsA 5 initialAlertState (some (fooTick "abc")) =
      .next (applyTimer 5 initialAlertState) [] [.priceError] :=
  ⟨(malformedPrice_skip priceTargetsB priceTargetsA (fooTick "abc") 5
      initialAlertState (by decide) (by decide)).1,
   (malformedPrice_skip priceTargetsB priceTargetsA (fooTick "abc") 5
      initialAlertState (by decide) (by decide)).2.1⟩

/-- C7:  In both variants a decoded `"trade"` tick whose symbol is not in
the target table raises no alert and sends nothing, whatever its price: the
only effect is the informational log of the current price. -/
theorem absentSymbol_noAlert (tblB tblA : List (String × List ℚ))
    (trade : TradeMessage) (p : ℚ) (now : Nat) (s : AlertState)
    (hE : trimSpace trade.Event = "trade")
    (hp : parseFloat trade.Price = some p)
    (hB : lookupTargets tblB trade.Symbol = none)
    (hA : lookupTargets tblA trade.Symbol = none) :
    processMessageB tblB (some trade) = .next [.info trade.Symbol p] ∧
    processMessageA tblA now s (some trade) =
      .next (applyTimer now s) [] [.info trade.Symbol p] := by
  constructor
  · simp [processMessageB, hE, hp, hB]
  · simp [processMessageA, hE, hp, hA]

/-- Witness for `absentSymbol_noAlert`: a FOOUSDT tick at 205 produces only
the price log in both variants. -/
theorem absentSymbol_noAlert_witness :
    processMessageB priceTargetsB (some (fooTick "205.00")) =
      .next [.info "FOOUSDT" 205] ∧
    processMessageA priceTargetsA 0 initialAlertState (some (fooTick "205.00")) =
      .next (applyTimer 0 initialAlertState) [] [.info "FOOUSDT" 205] :=
  ⟨(absentSymbol_noAlert priceTargetsB priceTargetsA (fooTick "205.00") 205 0
      initialAlertState (by decide) (by decide) (by decide) (by decide)).1,
   (absentSymbol_noAlert priceTargetsB priceTargetsA (fooTick "205.00") 205 0
      initialAlertState (by decide) (by decide) (by decide) (by decide)).2⟩

/-- C8:  The subscription of both variants: exactly one stream name per
configured symbol, each the lower-cased symbol followed by `"@trade"`; the
connection path joins them with `"/"` after the base URL; and the single
SUBSCRIBE control message carries method `"SUBSCRIBE"`, the stream-name list
as `params`, and the generated request id. -/
theorem subscription_contract (symbols : List String) (requestID : String) :
    (subscriptionStreams symbols).length = symbols.length ∧
    (∀ sym ∈ symbols, streamName sym ∈ subscriptionStreams symbols) ∧
    subscriptionStreams symbols =
      symbols.map (fun sym => toLowerStr sym ++ "@trade") ∧
    connectionURL symbols =
      binanceWSSURL ++ "/" ++ String.intercalate "/" (subscriptionStreams symbols) ∧
    (mkSubscribeMessage symbols requestID).method = "SUBSCRIBE" ∧
    (mkSubscribeMessage symbols requestID).params = subscriptionStreams symbols ∧
    (mkSubscribeMessage symbols requestID).id = requestID := by
  refine ⟨List.length_map _ _, fun sym h => List.mem_map_of_mem streamName h,
    rfl, rfl, rfl, rfl, rfl⟩

/-- Witness for `subscription_contract` on the one-symbol table. -/
theorem subscription_contract_witness :
    streamName "SOLUSDT" ∈ subscriptionStreams ["SOLUSDT"] ∧
    (mkSubscribeMessage ["SOLUSDT"] "req-1").params = ["solusdt@trade"] :=
  ⟨(subscription_contract ["SOLUSDT"] "req-1").2.1 "SOLUSDT" (by decide),
   by
    rw [(subscription_contract ["SOLUSDT"] "req-1").2.2.2.2.2.1]
    decide⟩

/-- C9:  Variant A's notifier: one send attempt per destination in the
static chat-id list, in order, each carrying the same symbol, observed price
and matched target; a delivery failure is logged for that destination alone
and does not change which other attempts are made (the attempt list does not
depend on the failure oracle), nor does it abort the loop. -/
theorem telegramFanout_contract (fails : Int → Bool) (trade : TradeMessage)
    (price target : ℚ) :
    (sendTelegramChats fails trade price target).map (fun o => o.attempted) =
      chatIds.map (fun chatID =>
        { ChatID := chatID, Symbol := trade.Symbol, Price := price,
          Target := target }) ∧
    (sendTelegramChats fails trade price target).length = chatIds.length ∧
    (∀ o ∈ sendTelegramChats fails trade price target,
      o.attempted.Symbol = trade.Symbol ∧ o.attempted.Price = price ∧
        o.attempted.Target = target ∧ o.errorLogged = fails o.attempted.ChatID) ∧
    (∀ fails' : Int → Bool,
      (sendTelegramChats fails' trade price target).map (fun o => o.attempted) =
        (sendTelegramChats fails trade price target).map (fun o => o.attempted)) := by
  refine ⟨?_, List.length_map _ _, ?_, ?_⟩
  · simp [sendTelegramChats, sendMessage]
  · intro o ho
    simp only [sendTelegramChats, List.mem_map] at ho
    rcases ho with ⟨chatID, _, rfl⟩
    exact ⟨rfl, rfl, rfl, rfl⟩
  · intro fails'
    simp [sendTelegramChats, sendMessage]

/-- Witness for `telegramFanout_contract`: with the middle destination
failing, all three configured chats are still attempted with the same
payload. -/
theorem telegramFanout_contract_witness :
    ((sendTelegramChats (fun c => c == 6753790669) (solTick "208.9")
        (2089 / 10) 210).map (fun o => o.attempted)) =
      chatIds.map (fun chatID =>
        { ChatID := chatID, Symbol := "SOLUSDT", Price := 2089 / 10,
          Target := 210 }) ∧
    ∀ o ∈ sendTelegramChats (fun c => c == 6753790669) (solTick "208.9")
        (2089 / 10) 210, o.attempted.Symbol = "SOLUSDT" :=
  ⟨(telegramFanout_contract (fun c => c == 6753790669) (solTick "208.9")
      (2089 / 10) 210).1,
   fun o ho => ((telegramFanout_contract (fun c => c == 6753790669)
      (solTick "208.9") (2089 / 10) 210).2.2.1 o ho).1⟩

/-- Relation maintained by variant A's loop: whenever the suppression flag is
set, `lastSymbol` is the symbol of the most recently delivered alert. -/
def lastAlertMatches (s : AlertState) (history : List Alert) : Prop :=
  s.alertEmitted = true →
    ∃ a : Alert, history.getLast? = some a ∧ a.symbol = s.lastSymbol

theorem lastAlertMatches_applyTimer (now : Nat) (s : AlertState)
    (h : List Alert) (hm : lastAlertMatches s h) :
    lastAlertMatches (applyTimer now s) h := by
  unfold applyTimer
  cases hd : s.deadline with
  | none => exact hm
  | some d =>
    by_cases hle : d ≤ now
    · simp only [hle, if_true]
      intro hcon
      simp at hcon
    · simp only [hle, if_false]
      exact hm

theorem lastAlertMatches_step (tbl : List (String × List ℚ)) (now : Nat)
    (s s' : AlertState) (dec : Option TradeMessage) (as : List Alert)
    (logs : List LogLine) (h : List Alert) (hm : lastAlertMatches s h)
    (hstep : processMessageA tbl now s dec = .next s' as logs) :
    lastAlertMatches s' (h ++ as) := by
  have hm1 := lastAlertMatches_applyTimer now s h hm
  cases dec with
  | none => exact absurd hstep (by simp [processMessageA])
  | some trade =>
    by_cases hE : (trimSpace trade.Event == "trade") = true
    · cases hp : parseFloat trade.Price with
      | none =>
        rw [show processMessageA tbl now s (some trade) =
            .next (applyTimer now s) [] [.priceError] from
          by simp [processMessageA, hE, hp]] at hstep
        cases hstep
        simpa using hm1
      | some price =>
        cases hl : lookupTargets tbl trade.Symbol with
        | none =>
          rw [show processMessageA tbl now s (some trade) =
              .next (applyTimer now s) [] [.info trade.Symbol price] from
            by simp [processMessageA, hE, hp, hl]] at hstep
          cases hstep
          simpa using hm1
        | some targets =>
          rw [show processMessageA tbl now s (some trade) =
              .next (evalTargetsA now trade.Symbol price targets
                  (applyTimer now s)).1
                (evalTargetsA now trade.Symbol price targets
                  (applyTimer now s)).2
                ((evalTargetsA now trade.Symbol price targets
                  (applyTimer now s)).2.map
                  (fun a => .alert a.symbol a.price a.target)) from
            by simp [processMessageA, hE, hp, hl]] at hstep
          cases hstep
          by_cases hempty : (evalTargetsA now trade.Symbol price targets
              (applyTimer now s)).2 = []
          · rw [evalTargetsA_nil_state now trade.Symbol price targets _ hempty]
            simpa [hempty] using hm1
          · rw [evalTargetsA_arm now trade.Symbol price targets _ hempty]
            intro _
            obtain ⟨a, ha⟩ := Option.isSome_iff_exists.mp
              (List.getLast?_isSome.mpr hempty)
            refine ⟨a, ?_, ?_⟩
            · rw [List.getLast?_append_of_ne_nil h hempty, ha]
            · exact evalTargetsA_symbols now trade.Symbol price targets _ a
                (List.mem_of_getLast?_eq_some ha)
    · have hE' : (trimSpace trade.Event == "trade") = false := by
        simpa using hE
      rw [show processMessageA tbl now s (some trade) =
          .next (applyTimer now s) [] [] from
        by simp [processMessageA, hE']] at hstep
      cases hstep
      simpa using hm1

theorem runA_lastAlertMatches (tbl : List (String × List ℚ))
    (evs : List Frame) : ∀ (s : AlertState) (h : List Alert),
    lastAlertMatches s h →
    lastAlertMatches (runA tbl evs s).1 (h ++ (runA tbl evs s).2) := by
  induction evs with
  | nil => intro s h hm; simpa [runA] using hm
  | cons f fs ih =>
    intro s h hm
    cases hstep : processMessageA tbl f.now s f.decoded with
    | crash logs =>
      simp only [runA, hstep]
      simpa using hm
    | next s' as logs =>
      have hm' := lastAlertMatches_step tbl f.now s s' f.decoded as logs h hm
        hstep
      have hrec := ih s' (h ++ as) hm'
      simp only [runA, hstep]
      simpa [List.append_assoc] using hrec

/-- C10:  Variant A starts with suppression inactive, so the first tick
matching a configured target delivers a notification; and along any run of
the loop from the initial state, whenever the suppression flag is set the
recorded `lastSymbol` is the symbol of the alert that most recently armed
the suppression (the last delivered alert). -/
theorem initialState_and_lastSymbol_invariant (tbl : List (String × List ℚ)) :
    initialAlertState.alertEmitted = false ∧
    (∀ (now : Nat) (trade : TradeMessage) (price : ℚ) (targets : List ℚ),
      trimSpace trade.Event = "trade" → parseFloat trade.Price = some price →
      lookupTargets tbl trade.Symbol = some targets →
      candidateAlerts price targets ≠ [] →
      (processMessageA tbl now initialAlertState (some trade)).alerts ≠ []) ∧
    (∀ evs : List Frame,
      (runA tbl evs initialAlertState).1.alertEmitted = true →
      ∃ a : Alert, (runA tbl evs initialAlertState).2.getLast? = some a ∧
        a.symbol = (runA tbl evs initialAlertState).1.lastSymbol) := by
  refine ⟨rfl, ?_, ?_⟩
  · intro now trade price targets hE hp hl hc
    rw [show processMessageA tbl now initialAlertState (some trade) =
        .next (evalTargetsA now trade.Symbol price targets
            (applyTimer now initialAlertState)).1
          (evalTargetsA now trade.Symbol price targets
            (applyTimer now initialAlertState)).2
          ((evalTargetsA now trade.Symbol price targets
            (applyTimer now initialAlertState)).2.map
            (fun a => .alert a.symbol a.price a.target)) from
      by simp [processMessageA, hE, hp, hl]]
    exact evalTargetsA_delivers now trade.Symbol price targets
      (applyTimer now initialAlertState) (Or.inl rfl) hc
  · intro evs
    have hinit : lastAlertMatches initialAlertState [] := by
      intro hcon
      exact absurd hcon (by decide)
    simpa [lastAlertMatches] using
      runA_lastAlertMatches tbl evs initialAlertState [] hinit

/-- Witness for `initialState_and_lastSymbol_invariant`: from the initial
state, the spec's scenario tick (SOLUSDT at 208.9 with target 210 in range)
delivers an alert. -/
theorem initialState_and_lastSymbol_invariant_witness :
    (processMessageA priceTargetsA 0 initialAlertState
      (some (solTick "208.9"))).alerts ≠ [] :=
  (initialState_and_lastSymbol_invariant priceTargetsA).2.1 0 (solTick "208.9")
    (2089 / 10) [210, 200, 190] (by decide) (by decide) (by decide) (by decide)
